import Mathlib

/-!
Verification development for the WebSocket chat-completion client
(`src/examples/websocket_client.js`).

The client is a correlation layer: each outbound request gets a fresh
identifier, a handler closure is stored in the `messageHandlers` map keyed
by that identifier, and every inbound frame is routed by `handleMessage`
to the handler registered for its `request_id` (if any).

Shallow embedding choices:
* A JS handler closure is represented by the `Handler` inductive, carrying
  exactly the state the closure captures (`stream`, whether an `onChunk`
  observer was supplied, and the mutable `fullResponse` accumulator).
* Promise settlements and observer invocations are recorded in an ordered
  event log (`ClientState.events`); JS deletes the handler in the same
  synchronous step that settles the promise, which the embedding mirrors.
* `setTimeout` arming is modelled by the `pendingTimers` list: `ping` arms
  a timer for its id, and `fireTimeout` is the timer callback, which fires
  at most once (the timer is consumed when it fires).  The source contains
  no `clearTimeout`, so no operation removes a timer other than its own
  firing.
* `Math.random() * 16 | 0` always yields an integer in `0..15`, modelled
  as a draw from `Fin 16`.
-/

/-- The `data` payload of a `stream_chunk` frame; `deltaContent` models the
optional-chain `chunk.choices[0]?.delta?.content` (`none` when any link of
the path is missing). -/
structure ChunkData where
  deltaContent : Option String
  deriving Repr, DecidableEq

/-- The `data` payload of a `completion` frame; `messageContent` models
`completion.choices[0]?.message?.content` (`none` when the path is
missing), `rest` stands for the remaining fields of the raw JSON object. -/
structure CompletionData where
  messageContent : Option String
  rest : Nat
  deriving Repr, DecidableEq

/-- The `type` tag of an inbound frame together with its payload. -/
inductive MsgType where
  | error (msg : String)
  | stream_chunk (data : ChunkData)
  | stream_complete
  | completion (data : CompletionData)
  | pong
  deriving Repr, DecidableEq

/-- A decoded inbound frame: `request_id` is `none` when the field is
absent (JS `undefined`). -/
structure Frame where
  request_id : Option String
  type : MsgType
  deriving Repr, DecidableEq

/-- A value a promise can resolve with: a string (stream accumulation or
extracted message content), the raw completion payload, or `unit` (pong). -/
inductive Value where
  | str (s : String)
  | payload (d : CompletionData)
  | unit
  deriving Repr, DecidableEq

/-- Observable events, in occurrence order: promise resolution, promise
rejection, and an `onChunk` observer invocation. -/
inductive Event where
  | resolved (id : String) (v : Value)
  | rejected (id : String) (msg : String)
  | chunkObserved (id : String) (fragment : String)
  deriving Repr, DecidableEq

/-- The correlation id an event belongs to. -/
def Event.eid : Event → String
  | .resolved id _ => id
  | .rejected id _ => id
  | .chunkObserved id _ => id

/-- Whether an event settles a promise (resolution or rejection). -/
def Event.isTerminal : Event → Bool
  | .resolved _ _ => true
  | .rejected _ _ => true
  | .chunkObserved _ _ => false

/-- The handler closure stored in `messageHandlers` for one exchange.
`chat` is the closure created by `sendChatCompletion` (capturing the
`stream` flag, whether an `onChunk` observer was supplied, and the
accumulated `fullResponse`); `heartbeat` is the closure created by
`ping`. -/
inductive Handler where
  | chat (stream : Bool) (hasObserver : Bool) (fullResponse : String)
  | heartbeat
  deriving Repr, DecidableEq

/-- `Map.has` on the handler registry. -/
def mapHas : List (String × Handler) → String → Bool
  | [], _ => false
  | p :: rest, k => p.1 == k || mapHas rest k

/-- `Map.get` on the handler registry. -/
def mapGet : List (String × Handler) → String → Option Handler
  | [], _ => none
  | p :: rest, k => if p.1 == k then some p.2 else mapGet rest k

/-- `Map.set` on the handler registry: replace in place, else append. -/
def mapSet : List (String × Handler) → String → Handler →
    List (String × Handler)
  | [], k, v => [(k, v)]
  | p :: rest, k, v =>
      if p.1 == k then (k, v) :: rest else p :: mapSet rest k v

/-- `Map.delete` on the handler registry. -/
def mapDelete : List (String × Handler) → String → List (String × Handler)
  | [], _ => []
  | p :: rest, k =>
      if p.1 == k then mapDelete rest k else p :: mapDelete rest k

/-- The client state: the `messageHandlers` registry, the set of armed and
not-yet-fired `setTimeout` timers (identified by the ping id they guard),
and the ordered log of observable events. -/
structure ClientState where
  messageHandlers : List (String × Handler)
  pendingTimers : List String
  events : List Event
  deriving Repr, DecidableEq

/-- The empty client state (a freshly constructed client). -/
def initState : ClientState := ⟨[], [], []⟩

/-- The body of the handler closure registered for `id`, applied to an
inbound frame of type `t`.  Mirrors the two closures in the source:

For `chat stream hasObserver fullResponse`:
* `error` frames reject with the carried message and delete the handler;
* `stream_chunk` frames, when `stream` is set and the delta content is
  truthy (present and non-empty), append to `fullResponse` and invoke the
  observer when one was supplied;
* `stream_complete` frames, when `stream` is set, resolve with the
  accumulated `fullResponse` and delete the handler;
* `completion` frames, when `stream` is not set, resolve with the message
  content when truthy, otherwise with the raw payload, and delete.

For `heartbeat`: only a `pong` frame does anything — resolve and delete. -/
def runHandler (id : String) (h : Handler) (t : MsgType) (s : ClientState) :
    ClientState :=
  match h with
  | .chat stream hasObs acc =>
    match t with
    | .error msg =>
        { s with
          events := s.events ++ [.rejected id msg],
          messageHandlers := mapDelete s.messageHandlers id }
    | .stream_chunk d =>
        if stream then
          match d.deltaContent with
          | some c =>
              if c = "" then s
              else
                { s with
                  messageHandlers :=
                    mapSet s.messageHandlers id (.chat stream hasObs (acc ++ c)),
                  events :=
                    s.events ++ (if hasObs then [.chunkObserved id c] else []) }
          | none => s
        else s
    | .stream_complete =>
        if stream then
          { s with
            events := s.events ++ [.resolved id (.str acc)],
            messageHandlers := mapDelete s.messageHandlers id }
        else s
    | .completion d =>
        if stream then s
        else
          match d.messageContent with
          | some c =>
              if c = "" then
                { s with
                  events := s.events ++ [.resolved id (.payload d)],
                  messageHandlers := mapDelete s.messageHandlers id }
              else
                { s with
                  events := s.events ++ [.resolved id (.str c)],
                  messageHandlers := mapDelete s.messageHandlers id }
          | none =>
              { s with
                events := s.events ++ [.resolved id (.payload d)],
                messageHandlers := mapDelete s.messageHandlers id }
    | .pong => s
  | .heartbeat =>
    match t with
    | .pong =>
        { s with
          events := s.events ++ [.resolved id .unit],
          messageHandlers := mapDelete s.messageHandlers id }
    | _ => s

/-- `handleMessage`: extract `request_id`; when it is truthy (present and
non-empty) and the registry holds a handler for it, invoke that handler on
the frame; otherwise drop the frame. -/
def handleMessage (s : ClientState) (f : Frame) : ClientState :=
  match f.request_id with
  | none => s
  | some rid =>
      if rid ≠ "" ∧ mapHas s.messageHandlers rid then
        match mapGet s.messageHandlers rid with
        | some h => runHandler rid h f.type s
        | none => s
      else s

/-- `sendChatCompletion` (registration step): store a fresh chat handler
closure for the generated `requestId`, with `fullResponse` initialised to
the empty string.  The outbound send itself is external transport. -/
def sendChatCompletion (s : ClientState) (requestId : String) (stream : Bool)
    (hasObserver : Bool) : ClientState :=
  { s with
    messageHandlers :=
      mapSet s.messageHandlers requestId (.chat stream hasObserver "") }

/-- `ping` (registration step): store a heartbeat handler for the generated
`pingId` and arm a `setTimeout` timer for it. -/
def ping (s : ClientState) (pingId : String) : ClientState :=
  { s with
    messageHandlers := mapSet s.messageHandlers pingId .heartbeat,
    pendingTimers := s.pendingTimers ++ [pingId] }

/-- The `setTimeout` callback armed by `ping`, firing for `pingId`: a timer
fires only if armed and not yet fired (firing consumes it); the callback
body deletes the handler and rejects with a timeout error only when the
registry still holds `pingId`. -/
def fireTimeout (s : ClientState) (pingId : String) : ClientState :=
  if pingId ∈ s.pendingTimers then
    let s1 := { s with pendingTimers := s.pendingTimers.erase pingId }
    if mapHas s1.messageHandlers pingId then
      { s1 with
        messageHandlers := mapDelete s1.messageHandlers pingId,
        events := s1.events ++ [.rejected pingId "Ping timeout"] }
    else s1
  else s

/-- One event-loop occurrence: a request issuance, a ping issuance, an
inbound frame delivery, or a timer firing. -/
inductive Input where
  | issueChat (id : String) (stream : Bool) (observer : Bool)
  | issuePing (id : String)
  | recv (f : Frame)
  | fire (id : String)
  deriving Repr, DecidableEq

/-- Inputs that do not issue a new exchange. -/
def Input.isPassive : Input → Bool
  | .recv _ => true
  | .fire _ => true
  | _ => false

/-- Process one event-loop occurrence. -/
def step (s : ClientState) : Input → ClientState
  | .issueChat id stream obs => sendChatCompletion s id stream obs
  | .issuePing id => ping s id
  | .recv f => handleMessage s f
  | .fire id => fireTimeout s id

/-- Process a sequence of event-loop occurrences in delivery order. -/
def run (s : ClientState) (l : List Input) : ClientState :=
  l.foldl step s

/-- A `stream_chunk` frame carrying delta content `c` for `id`. -/
def chunkFrame (id c : String) : Frame := ⟨some id, .stream_chunk ⟨some c⟩⟩

/-- A `stream_complete` frame for `id`. -/
def completeFrame (id : String) : Frame := ⟨some id, .stream_complete⟩

/-- A `pong` frame for `id`. -/
def pongFrame (id : String) : Frame := ⟨some id, .pong⟩

/-- An `error` frame for `id` carrying message `msg`. -/
def errorFrame (id msg : String) : Frame := ⟨some id, .error msg⟩

/-- Number of terminal (settlement) events for `id` in an event log. -/
def countTerminal (evs : List Event) (id : String) : Nat :=
  evs.countP (fun e => e.isTerminal && e.eid == id)

/-- The character JS `v.toString(16)` produces for `v < 16`: a decimal
digit for `v < 10`, a lowercase letter from `a` onwards otherwise. -/
def hexDigitN : Nat → Char
  | 0 => '0'
  | 1 => '1'
  | 2 => '2'
  | 3 => '3'
  | 4 => '4'
  | 5 => '5'
  | 6 => '6'
  | 7 => '7'
  | 8 => '8'
  | 9 => '9'
  | 10 => 'a'
  | 11 => 'b'
  | 12 => 'c'
  | 13 => 'd'
  | 14 => 'e'
  | _ => 'f'

/-- Whether a character is a lowercase hex digit. -/
def isHexChar (c : Char) : Bool :=
  ('0' ≤ c && c ≤ '9') || ('a' ≤ c && c ≤ 'f')

/-- The template string of `generateUUID`. -/
def uuidTemplate : List Char := "xxxxxxxx-xxxx-4xxx-yxxx-xxxxxxxxxxxx".toList

/-- The `replace(/[xy]/g, ...)` callback applied across the template:
each matched character consumes one random draw `r` (the value of
`Math.random() * 16 | 0`); an `x` becomes `r.toString(16)` and a `y`
becomes `(r & 0x3 | 0x8).toString(16)`; other characters pass through
without consuming a draw. -/
def uuidReplace (rand : Nat → Fin 16) : Nat → List Char → List Char
  | _, [] => []
  | i, c :: cs =>
      if c = 'x' then hexDigitN (rand i).val :: uuidReplace rand (i + 1) cs
      else if c = 'y' then
        hexDigitN (((rand i).val &&& 3) ||| 8) :: uuidReplace rand (i + 1) cs
      else c :: uuidReplace rand i cs

/-- `generateUUID`, parameterised by the sequence of random draws. -/
def generateUUID (rand : Nat → Fin 16) : String :=
  String.mk (uuidReplace rand 0 uuidTemplate)

/-! ### Registry (JS `Map`) lemmas -/

theorem mapGet_mapSet_self (m : List (String × Handler)) (k : String)
    (v : Handler) : mapGet (mapSet m k v) k = some v := by
  induction m with
  | nil => simp [mapSet, mapGet]
  | cons p rest ih =>
      by_cases h : p.1 = k
      · simp [mapSet, mapGet, h]
      · simpa [mapSet, mapGet, h] using ih

theorem mapGet_mapSet_ne (m : List (String × Handler)) (k k' : String)
    (v : Handler) (h : k' ≠ k) : mapGet (mapSet m k v) k' = mapGet m k' := by
  induction m with
  | nil => simp [mapSet, mapGet, Ne.symm h]
  | cons p rest ih =>
      by_cases hp : p.1 = k
      · simp [mapSet, mapGet, hp, Ne.symm h]
      · by_cases hp' : p.1 = k'
        · simp [mapSet, mapGet, hp, hp', h]
        · simpa [mapSet, mapGet, hp, hp'] using ih

theorem mapHas_eq_isSome (m : List (String × Handler)) (k : String) :
    mapHas m k = (mapGet m k).isSome := by
  induction m with
  | nil => simp [mapHas, mapGet]
  | cons p rest ih =>
      by_cases h : p.1 = k
      · simp [mapHas, mapGet, h]
      · have hb : (p.1 == k) = false := by simp [h]
        simpa [mapHas, mapGet, h, hb] using ih

theorem mapGet_mapDelete_self (m : List (String × Handler)) (k : String) :
    mapGet (mapDelete m k) k = none := by
  induction m with
  | nil => simp [mapDelete, mapGet]
  | cons p rest ih =>
      by_cases h : p.1 = k
      · simpa [mapDelete, mapGet, h] using ih
      · simpa [mapDelete, mapGet, h] using ih

theorem mapHas_mapDelete_self (m : List (String × Handler)) (k : String) :
    mapHas (mapDelete m k) k = false := by
  simp [mapHas_eq_isSome, mapGet_mapDelete_self]

theorem mapGet_mapDelete_ne (m : List (String × Handler)) (k k' : String)
    (h : k' ≠ k) : mapGet (mapDelete m k) k' = mapGet m k' := by
  induction m with
  | nil => simp [mapDelete, mapGet]
  | cons p rest ih =>
      by_cases hp : p.1 = k
      · have hp' : ¬p.1 = k' := fun hh => h (hh ▸ hp)
        simpa [mapDelete, mapGet, hp, hp', Ne.symm h] using ih
      · by_cases hp' : p.1 = k'
        · simp [mapDelete, mapGet, hp, hp', h]
        · simpa [mapDelete, mapGet, hp, hp'] using ih

theorem mapHas_mapDelete_false (m : List (String × Handler)) (j k : String)
    (h : mapHas m k = false) : mapHas (mapDelete m j) k = false := by
  by_cases hk : k = j
  · simpa [hk] using mapHas_mapDelete_self m j
  · rw [mapHas_eq_isSome, mapGet_mapDelete_ne m j k hk, ← mapHas_eq_isSome]
    exact h

/-! ### Engine step lemmas -/

theorem handleMessage_none (s : ClientState) (t : MsgType) :
    handleMessage s ⟨none, t⟩ = s := rfl

theorem handleMessage_empty_id (s : ClientState) (t : MsgType) :
    handleMessage s ⟨some "", t⟩ = s := by
  simp [handleMessage]

theorem handleMessage_drop (s : ClientState) (rid : String) (t : MsgType)
    (h : mapHas s.messageHandlers rid = false) :
    handleMessage s ⟨some rid, t⟩ = s := by
  simp [handleMessage, h]

theorem handleMessage_dispatch (s : ClientState) (rid : String) (t : MsgType)
    (hd : Handler) (hrid : rid ≠ "")
    (hget : mapGet s.messageHandlers rid = some hd) :
    handleMessage s ⟨some rid, t⟩ = runHandler rid hd t s := by
  have hhas : mapHas s.messageHandlers rid = true := by
    simp [mapHas_eq_isSome, hget]
  simp [handleMessage, hrid, hhas, hget]

theorem runHandler_timers (rid : String) (hd : Handler) (t : MsgType)
    (s : ClientState) :
    (runHandler rid hd t s).pendingTimers = s.pendingTimers := by
  cases hd <;> cases t <;> simp only [runHandler] <;> (repeat' split) <;> rfl

theorem runHandler_events_suffix (rid : String) (hd : Handler) (t : MsgType)
    (s : ClientState) :
    ∃ tail, (runHandler rid hd t s).events = s.events ++ tail ∧
      ∀ e ∈ tail, Event.eid e = rid := by
  cases hd <;> cases t <;> simp only [runHandler] <;> (repeat' split) <;>
    solve
      | (refine ⟨[], ?_, ?_⟩ <;> simp)
      | (refine ⟨_, rfl, ?_⟩
         simp [Event.eid])

theorem runHandler_get_ne (rid k : String) (hd : Handler) (t : MsgType)
    (s : ClientState) (hk : k ≠ rid) :
    mapGet (runHandler rid hd t s).messageHandlers k =
      mapGet s.messageHandlers k := by
  cases hd <;> cases t <;> simp only [runHandler] <;> (repeat' split) <;>
    simp [mapGet_mapDelete_ne _ _ _ hk, mapGet_mapSet_ne _ _ _ _ hk]

theorem countTerminal_append (l1 l2 : List Event) (id : String) :
    countTerminal (l1 ++ l2) id =
      countTerminal l1 id + countTerminal l2 id := by
  simp [countTerminal, List.countP_append]

theorem countTerminal_zero_of_ne (tail : List Event) (rid id : String)
    (hall : ∀ e ∈ tail, Event.eid e = rid) (hne : id ≠ rid) :
    countTerminal tail id = 0 := by
  unfold countTerminal
  rw [List.countP_eq_zero]
  intro e he
  have h1 := hall e he
  simp [h1, Ne.symm hne]

theorem runHandler_settle (rid : String) (hd : Handler) (t : MsgType)
    (s : ClientState) :
    countTerminal (runHandler rid hd t s).events rid =
        countTerminal s.events rid ∨
      mapHas (runHandler rid hd t s).messageHandlers rid = false := by
  cases hd <;> cases t <;> simp only [runHandler] <;> (repeat' split) <;>
    solve
      | (left
         simp [countTerminal_append, countTerminal, Event.isTerminal,
           List.countP_cons, List.countP_nil])
      | (right
         simp [mapHas_mapDelete_self])

theorem fireTimeout_no_handler (s : ClientState) (id : String)
    (h : mapHas s.messageHandlers id = false) :
    (fireTimeout s id).events = s.events ∧
      (fireTimeout s id).messageHandlers = s.messageHandlers := by
  unfold fireTimeout
  split
  · simp [h]
  · exact ⟨rfl, rfl⟩

theorem fireTimeout_ne (s : ClientState) (j id : String) (hne : id ≠ j)
    (h : mapHas s.messageHandlers id = false) :
    mapHas (fireTimeout s j).messageHandlers id = false ∧
      countTerminal (fireTimeout s j).events id =
        countTerminal s.events id := by
  have hz : countTerminal [Event.rejected j "Ping timeout"] id = 0 :=
    countTerminal_zero_of_ne _ j id (by simp [Event.eid]) hne
  by_cases ht : j ∈ s.pendingTimers
  · by_cases hg : mapHas s.messageHandlers j = true
    · have hf : fireTimeout s j =
          { messageHandlers := mapDelete s.messageHandlers j,
            pendingTimers := s.pendingTimers.erase j,
            events := s.events ++ [Event.rejected j "Ping timeout"] } := by
        simp [fireTimeout, ht, hg]
      rw [hf]
      refine ⟨mapHas_mapDelete_false _ _ _ h, ?_⟩
      simp [countTerminal_append, hz]
    · have hg' : mapHas s.messageHandlers j = false := by simpa using hg
      have hf : fireTimeout s j =
          { s with pendingTimers := s.pendingTimers.erase j } := by
        simp [fireTimeout, ht, hg']
      rw [hf]
      exact ⟨h, rfl⟩
  · have hf : fireTimeout s j = s := by simp [fireTimeout, ht]
    rw [hf]
    exact ⟨h, rfl⟩

theorem step_passive_preserves (s : ClientState) (i : Input) (id : String)
    (hp : Input.isPassive i = true)
    (h : mapHas s.messageHandlers id = false) :
    mapHas (step s i).messageHandlers id = false ∧
      countTerminal (step s i).events id = countTerminal s.events id := by
  cases i with
  | issueChat a b c => simp [Input.isPassive] at hp
  | issuePing a => simp [Input.isPassive] at hp
  | recv f =>
      obtain ⟨orid, t⟩ := f
      cases orid with
      | none =>
          have hs : step s (.recv ⟨none, t⟩) = s := handleMessage_none s t
          rw [hs]
          exact ⟨h, rfl⟩
      | some rid =>
          by_cases hhas : mapHas s.messageHandlers rid = true
          · by_cases hrid : rid = ""
            · subst hrid
              have hs : step s (.recv ⟨some "", t⟩) = s :=
                handleMessage_empty_id s t
              rw [hs]
              exact ⟨h, rfl⟩
            · have hne : id ≠ rid := by
                intro hh
                rw [hh] at h
                rw [h] at hhas
                exact Bool.false_ne_true hhas
              obtain ⟨hd, hget⟩ :
                  ∃ hd, mapGet s.messageHandlers rid = some hd := by
                rw [mapHas_eq_isSome] at hhas
                exact Option.isSome_iff_exists.mp hhas
              have hs : step s (.recv ⟨some rid, t⟩) = runHandler rid hd t s :=
                handleMessage_dispatch s rid t hd hrid hget
              rw [hs]
              constructor
              · rw [mapHas_eq_isSome, runHandler_get_ne rid id hd t s hne,
                  ← mapHas_eq_isSome]
                exact h
              · obtain ⟨tail, hev, hall⟩ := runHandler_events_suffix rid hd t s
                rw [hev, countTerminal_append,
                  countTerminal_zero_of_ne tail rid id hall hne]
                exact Nat.add_zero _
          · have hh : mapHas s.messageHandlers rid = false := by
              simpa using hhas
            have hs : step s (.recv ⟨some rid, t⟩) = s :=
              handleMessage_drop s rid t hh
            rw [hs]
            exact ⟨h, rfl⟩
  | fire j =>
      by_cases hj : id = j
      · subst hj
        have hft := fireTimeout_no_handler s id h
        constructor
        · show mapHas (fireTimeout s id).messageHandlers id = false
          rw [hft.2]
          exact h
        · show countTerminal (fireTimeout s id).events id =
            countTerminal s.events id
          rw [hft.1]
      · exact fireTimeout_ne s j id hj h

theorem run_passive_no_new (s : ClientState) (l : List Input) (id : String)
    (hl : l.all Input.isPassive = true)
    (h : mapHas s.messageHandlers id = false) :
    mapHas (run s l).messageHandlers id = false ∧
      countTerminal (run s l).events id = countTerminal s.events id := by
  induction l generalizing s with
  | nil => exact ⟨h, rfl⟩
  | cons i rest ih =>
      rw [List.all_cons, Bool.and_eq_true] at hl
      obtain ⟨h1, h2⟩ := step_passive_preserves s i id hl.1 h
      have hr := ih (step s i) hl.2 h1
      refine ⟨hr.1, ?_⟩
      have hrun : run s (i :: rest) = run (step s i) rest := rfl
      rw [hrun, hr.2, h2]

/-! ### Claim theorems -/

/-- C1: for a streaming request (stream = true) with an observer supplied,
feeding the engine `stream_chunk("A")`, `stream_chunk("B")`,
`stream_complete` in that order resolves the promise with the
concatenation `"AB"`, the observer is invoked exactly twice, first with
`"A"` and then with `"B"` (once per non-empty fragment, in arrival
order), and the exchange is removed from the registry. -/
theorem streaming_accumulation (s : ClientState) (id : String)
    (hid : id ≠ "") :
    (run (sendChatCompletion s id true true)
        [.recv (chunkFrame id "A"), .recv (chunkFrame id "B"),
          .recv (completeFrame id)]).events =
      s.events ++ [.chunkObserved id "A", .chunkObserved id "B",
        .resolved id (.str "AB")] ∧
    mapHas (run (sendChatCompletion s id true true)
        [.recv (chunkFrame id "A"), .recv (chunkFrame id "B"),
          .recv (completeFrame id)]).messageHandlers id = false := by
  have hg0 : mapGet (sendChatCompletion s id true true).messageHandlers id =
      some (.chat true true "") := mapGet_mapSet_self _ _ _
  have h1 : handleMessage (sendChatCompletion s id true true)
      (chunkFrame id "A") =
      { sendChatCompletion s id true true with
        messageHandlers :=
          mapSet (sendChatCompletion s id true true).messageHandlers id
            (.chat true true "A"),
        events := (sendChatCompletion s id true true).events ++
          [.chunkObserved id "A"] } := by
    rw [show chunkFrame id "A" =
        (⟨some id, .stream_chunk ⟨some "A"⟩⟩ : Frame) from rfl,
      handleMessage_dispatch _ id _ _ hid hg0]
    rfl
  have hg1 : mapGet (handleMessage (sendChatCompletion s id true true)
      (chunkFrame id "A")).messageHandlers id =
      some (.chat true true "A") := by
    rw [h1]
    exact mapGet_mapSet_self _ _ _
  have h2 : handleMessage (handleMessage (sendChatCompletion s id true true)
      (chunkFrame id "A")) (chunkFrame id "B") =
      { handleMessage (sendChatCompletion s id true true)
          (chunkFrame id "A") with
        messageHandlers :=
          mapSet (handleMessage (sendChatCompletion s id true true)
            (chunkFrame id "A")).messageHandlers id (.chat true true "AB"),
        events := (handleMessage (sendChatCompletion s id true true)
          (chunkFrame id "A")).events ++ [.chunkObserved id "B"] } := by
    rw [show chunkFrame id "B" =
        (⟨some id, .stream_chunk ⟨some "B"⟩⟩ : Frame) from rfl,
      handleMessage_dispatch _ id _ _ hid hg1]
    rfl
  have hg2 : mapGet (handleMessage (handleMessage
      (sendChatCompletion s id true true) (chunkFrame id "A"))
      (chunkFrame id "B")).messageHandlers id =
      some (.chat true true "AB") := by
    rw [h2]
    exact mapGet_mapSet_self _ _ _
  have h3 : handleMessage (handleMessage (handleMessage
      (sendChatCompletion s id true true) (chunkFrame id "A"))
      (chunkFrame id "B")) (completeFrame id) =
      { handleMessage (handleMessage (sendChatCompletion s id true true)
          (chunkFrame id "A")) (chunkFrame id "B") with
        messageHandlers :=
          mapDelete (handleMessage (handleMessage
            (sendChatCompletion s id true true) (chunkFrame id "A"))
            (chunkFrame id "B")).messageHandlers id,
        events := (handleMessage (handleMessage
          (sendChatCompletion s id true true) (chunkFrame id "A"))
          (chunkFrame id "B")).events ++ [.resolved id (.str "AB")] } := by
    rw [show completeFrame id =
        (⟨some id, .stream_complete⟩ : Frame) from rfl,
      handleMessage_dispatch _ id _ _ hid hg2]
    rfl
  refine ⟨?_, ?_⟩
  · show (handleMessage (handleMessage (handleMessage
        (sendChatCompletion s id true true) (chunkFrame id "A"))
        (chunkFrame id "B")) (completeFrame id)).events = _
    rw [h3, h2, h1]
    simp [sendChatCompletion]
  · show mapHas (handleMessage (handleMessage (handleMessage
        (sendChatCompletion s id true true) (chunkFrame id "A"))
        (chunkFrame id "B")) (completeFrame id)).messageHandlers id = false
    rw [h3]
    exact mapHas_mapDelete_self _ _

/-- Witness for C1 at the concrete state `initState` and id `"a"`. -/
theorem streaming_accumulation_witness :
    ("a" : String) ≠ "" ∧
    ((run (sendChatCompletion initState "a" true true)
        [.recv (chunkFrame "a" "A"), .recv (chunkFrame "a" "B"),
          .recv (completeFrame "a")]).events =
      initState.events ++ [.chunkObserved "a" "A", .chunkObserved "a" "B",
        .resolved "a" (.str "AB")] ∧
    mapHas (run (sendChatCompletion initState "a" true true)
        [.recv (chunkFrame "a" "A"), .recv (chunkFrame "a" "B"),
          .recv (completeFrame "a")]).messageHandlers "a" = false) :=
  ⟨by decide, streaming_accumulation initState "a" (by decide)⟩

/-- C5: for a unary request (stream = false), a `completion` frame matching
the id is the terminal success: when the payload carries a non-empty
message content string, the promise resolves with that content; when the
content path is missing, it resolves with the raw payload object; in
every case the exchange is removed in the same step. -/
theorem unary_completion (s : ClientState) (id : String)
    (d : CompletionData) (obs : Bool) (acc : String) (hid : id ≠ "")
    (hget : mapGet s.messageHandlers id = some (.chat false obs acc)) :
    (∀ c, d.messageContent = some c → c ≠ "" →
        (handleMessage s ⟨some id, .completion d⟩).events =
          s.events ++ [.resolved id (.str c)]) ∧
    (d.messageContent = none →
        (handleMessage s ⟨some id, .completion d⟩).events =
          s.events ++ [.resolved id (.payload d)]) ∧
    mapHas (handleMessage s ⟨some id, .completion d⟩).messageHandlers id =
      false := by
  have hdis := handleMessage_dispatch s id (.completion d) _ hid hget
  refine ⟨?_, ?_, ?_⟩
  · intro c hc hcne
    rw [hdis]
    simp [runHandler, hc, hcne]
  · intro hc
    rw [hdis]
    simp [runHandler, hc]
  · rw [hdis]
    rcases hmc : d.messageContent with _ | c
    · simp [runHandler, hmc, mapHas_mapDelete_self]
    · by_cases hce : c = "" <;>
        simp [runHandler, hmc, hce, mapHas_mapDelete_self]

/-- Witness for C5 at a concrete unary exchange and the payload whose
content is `"4"`. -/
theorem unary_completion_witness :
    (("a" : String) ≠ "" ∧
      mapGet (sendChatCompletion initState "a" false false).messageHandlers
        "a" = some (.chat false false "")) ∧
    ((∀ c, (⟨some "4", 0⟩ : CompletionData).messageContent = some c →
        c ≠ "" →
        (handleMessage (sendChatCompletion initState "a" false false)
          ⟨some "a", .completion ⟨some "4", 0⟩⟩).events =
          (sendChatCompletion initState "a" false false).events ++
            [.resolved "a" (.str c)]) ∧
    ((⟨some "4", 0⟩ : CompletionData).messageContent = none →
        (handleMessage (sendChatCompletion initState "a" false false)
          ⟨some "a", .completion ⟨some "4", 0⟩⟩).events =
          (sendChatCompletion initState "a" false false).events ++
            [.resolved "a" (.payload ⟨some "4", 0⟩)]) ∧
    mapHas (handleMessage (sendChatCompletion initState "a" false false)
      ⟨some "a", .completion ⟨some "4", 0⟩⟩).messageHandlers "a" = false) :=
  ⟨⟨by decide, by decide⟩,
    unary_completion (sendChatCompletion initState "a" false false) "a"
      ⟨some "4", 0⟩ false "" (by decide) (by decide)⟩

/-- C9: a mode-mismatched frame addressed to a live exchange is silently
ignored without terminating it: a `completion` frame delivered to a
streaming exchange, or a `stream_chunk` / `stream_complete` frame
delivered to a unary exchange, leaves the state entirely unchanged (no
callback, no settlement, exchange still registered). -/
theorem mode_mismatch_ignored (s : ClientState) (id acc : String)
    (obs : Bool) (d : CompletionData) (cd : ChunkData) (hid : id ≠ "") :
    (mapGet s.messageHandlers id = some (.chat true obs acc) →
        handleMessage s ⟨some id, .completion d⟩ = s) ∧
    (mapGet s.messageHandlers id = some (.chat false obs acc) →
        handleMessage s ⟨some id, .stream_chunk cd⟩ = s ∧
        handleMessage s ⟨some id, .stream_complete⟩ = s) := by
  constructor
  · intro hget
    rw [handleMessage_dispatch s id _ _ hid hget]
    simp [runHandler]
  · intro hget
    constructor <;> rw [handleMessage_dispatch s id _ _ hid hget] <;>
      simp [runHandler]

/-- Witness for C9 at concrete streaming and unary exchanges. -/
theorem mode_mismatch_ignored_witness :
    ("a" : String) ≠ "" ∧
    ((mapGet (sendChatCompletion initState "a" true false).messageHandlers
        "a" = some (.chat true false "") →
        handleMessage (sendChatCompletion initState "a" true false)
          ⟨some "a", .completion ⟨some "4", 0⟩⟩ =
          sendChatCompletion initState "a" true false) ∧
    (mapGet (sendChatCompletion initState "a" true false).messageHandlers
        "a" = some (.chat false false "") →
        handleMessage (sendChatCompletion initState "a" true false)
          ⟨some "a", .stream_chunk ⟨some "A"⟩⟩ =
          sendChatCompletion initState "a" true false ∧
        handleMessage (sendChatCompletion initState "a" true false)
          ⟨some "a", .stream_complete⟩ =
          sendChatCompletion initState "a" true false)) :=
  ⟨by decide,
    mode_mismatch_ignored (sendChatCompletion initState "a" true false)
      "a" "" false ⟨some "4", 0⟩ ⟨some "A"⟩ (by decide)⟩

/-- C10: for a unary request, a `completion` frame whose message content
field is present but equal to the empty string resolves the promise with
the raw payload object (content presence is tested by JS truthiness, and
the empty string is falsy), and the exchange is removed. -/
theorem unary_empty_content (s : ClientState) (id acc : String)
    (obs : Bool) (d : CompletionData) (hid : id ≠ "")
    (hget : mapGet s.messageHandlers id = some (.chat false obs acc))
    (hc : d.messageContent = some "") :
    (handleMessage s ⟨some id, .completion d⟩).events =
      s.events ++ [.resolved id (.payload d)] ∧
    mapHas (handleMessage s ⟨some id, .completion d⟩).messageHandlers id =
      false := by
  rw [handleMessage_dispatch s id _ _ hid hget]
  simp [runHandler, hc, mapHas_mapDelete_self]

/-- Witness for C10 at a concrete unary exchange with empty content. -/
theorem unary_empty_content_witness :
    (("a" : String) ≠ "" ∧
      mapGet (sendChatCompletion initState "a" false false).messageHandlers
        "a" = some (.chat false false "") ∧
      (⟨some "", 7⟩ : CompletionData).messageContent = some "") ∧
    ((handleMessage (sendChatCompletion initState "a" false false)
        ⟨some "a", .completion ⟨some "", 7⟩⟩).events =
      (sendChatCompletion initState "a" false false).events ++
        [.resolved "a" (.payload ⟨some "", 7⟩)] ∧
    mapHas (handleMessage (sendChatCompletion initState "a" false false)
      ⟨some "a", .completion ⟨some "", 7⟩⟩).messageHandlers "a" = false) :=
  ⟨⟨by decide, by decide, by decide⟩,
    unary_empty_content (sendChatCompletion initState "a" false false)
      "a" "" false ⟨some "", 7⟩ (by decide) (by decide) (by decide)⟩

/-- C6: routing correctness — a frame with absent, empty or unregistered
`request_id` produces no observable effect (the state is unchanged, so no
callback runs and no event is emitted), and a dispatched frame can only
change the registry entry of its own `request_id` and only emit events
carrying that id. -/
theorem routing_correctness (s : ClientState) (t : MsgType)
    (rid k : String) (hk : k ≠ rid) :
    handleMessage s ⟨none, t⟩ = s ∧
    (mapHas s.messageHandlers rid = false →
       handleMessage s ⟨some rid, t⟩ = s) ∧
    handleMessage s ⟨some "", t⟩ = s ∧
    mapGet (handleMessage s ⟨some rid, t⟩).messageHandlers k =
      mapGet s.messageHandlers k ∧
    ∃ tail, (handleMessage s ⟨some rid, t⟩).events = s.events ++ tail ∧
      ∀ e ∈ tail, Event.eid e = rid := by
  refine ⟨handleMessage_none s t, handleMessage_drop s rid t,
    handleMessage_empty_id s t, ?_, ?_⟩
  · by_cases hrid : rid = ""
    · subst hrid
      rw [handleMessage_empty_id]
    · by_cases hhas : mapHas s.messageHandlers rid = true
      · have hsome : (mapGet s.messageHandlers rid).isSome = true := by
          rw [← mapHas_eq_isSome]
          exact hhas
        obtain ⟨hd, hget⟩ := Option.isSome_iff_exists.mp hsome
        rw [handleMessage_dispatch s rid t hd hrid hget]
        exact runHandler_get_ne rid k hd t s hk
      · have hh : mapHas s.messageHandlers rid = false := by simpa using hhas
        rw [handleMessage_drop s rid t hh]
  · by_cases hrid : rid = ""
    · subst hrid
      rw [handleMessage_empty_id]
      exact ⟨[], by simp, by simp⟩
    · by_cases hhas : mapHas s.messageHandlers rid = true
      · have hsome : (mapGet s.messageHandlers rid).isSome = true := by
          rw [← mapHas_eq_isSome]
          exact hhas
        obtain ⟨hd, hget⟩ := Option.isSome_iff_exists.mp hsome
        rw [handleMessage_dispatch s rid t hd hrid hget]
        exact runHandler_events_suffix rid hd t s
      · have hh : mapHas s.messageHandlers rid = false := by simpa using hhas
        rw [handleMessage_drop s rid t hh]
        exact ⟨[], by simp, by simp⟩

/-- Witness for C6 at a concrete state with one registered exchange. -/
theorem routing_correctness_witness :
    ("b" : String) ≠ "a" ∧
    (handleMessage (ping initState "a") ⟨none, .pong⟩ = ping initState "a" ∧
    (mapHas (ping initState "a").messageHandlers "a" = false →
       handleMessage (ping initState "a") ⟨some "a", .pong⟩ =
         ping initState "a") ∧
    handleMessage (ping initState "a") ⟨some "", .pong⟩ =
      ping initState "a" ∧
    mapGet (handleMessage (ping initState "a")
        ⟨some "a", .pong⟩).messageHandlers "b" =
      mapGet (ping initState "a").messageHandlers "b" ∧
    ∃ tail, (handleMessage (ping initState "a")
        ⟨some "a", .pong⟩).events = (ping initState "a").events ++ tail ∧
      ∀ e ∈ tail, Event.eid e = "a") :=
  ⟨by decide, routing_correctness (ping initState "a") .pong "a" "b"
    (by decide)⟩

/-- C3 counterexample: the claim fails for heartbeat exchanges.  With a
live heartbeat exchange `"a"`, an inbound `error` frame bearing `"a"` is
silently ignored: the state is unchanged, the promise is not rejected
(no event is emitted), and the exchange is still in the registry. -/
theorem error_frame_heartbeat_cex :
    handleMessage (ping initState "a") (errorFrame "a" "boom") =
        ping initState "a" ∧
      mapHas (ping initState "a").messageHandlers "a" = true ∧
      (ping initState "a").events = [] := by decide

/-- C3 (amended): an inbound `error` frame whose `request_id` matches a
live chat exchange (streaming or unary) is a terminal failure — the
promise is rejected with the carried message and the exchange is removed;
but a heartbeat exchange ignores `error` frames entirely (its handler
only reacts to `pong`), leaving the state unchanged. -/
theorem error_frame_policy (s : ClientState) (id msg : String)
    (hid : id ≠ "") :
    (∀ stream obs acc,
       mapGet s.messageHandlers id = some (.chat stream obs acc) →
         (handleMessage s (errorFrame id msg)).events =
             s.events ++ [.rejected id msg] ∧
           mapHas (handleMessage s
             (errorFrame id msg)).messageHandlers id = false) ∧
    (mapGet s.messageHandlers id = some .heartbeat →
       handleMessage s (errorFrame id msg) = s) := by
  constructor
  · intro stream obs acc hget
    rw [show errorFrame id msg = (⟨some id, .error msg⟩ : Frame) from rfl,
      handleMessage_dispatch s id _ _ hid hget]
    simp [runHandler, mapHas_mapDelete_self]
  · intro hget
    rw [show errorFrame id msg = (⟨some id, .error msg⟩ : Frame) from rfl,
      handleMessage_dispatch s id _ _ hid hget]
    rfl

/-- Witness for the amended C3 at concrete chat and heartbeat states. -/
theorem error_frame_policy_witness :
    ("a" : String) ≠ "" ∧
    ((∀ stream obs acc,
       mapGet (ping initState "a").messageHandlers "a" =
           some (.chat stream obs acc) →
         (handleMessage (ping initState "a")
             (errorFrame "a" "boom")).events =
             (ping initState "a").events ++ [.rejected "a" "boom"] ∧
           mapHas (handleMessage (ping initState "a")
             (errorFrame "a" "boom")).messageHandlers "a" = false) ∧
    (mapGet (ping initState "a").messageHandlers "a" = some .heartbeat →
       handleMessage (ping initState "a") (errorFrame "a" "boom") =
         ping initState "a")) :=
  ⟨by decide, error_frame_policy (ping initState "a") "a" "boom"
    (by decide)⟩

/-- C4: pong arrival and timeout firing are mutually exclusive terminal
events for a heartbeat exchange.  When the `pong` frame is processed
before the timer fires, the promise resolves and the later firing adds no
rejection (the overall event log gains only the resolution); when the
timer fires first, the promise is rejected with the timeout error and a
late `pong` is dropped with no observable effect (the state is exactly
the post-timeout state). -/
theorem heartbeat_race (s : ClientState) (id : String) (hid : id ≠ "")
    (hget : mapGet s.messageHandlers id = some .heartbeat)
    (htimer : id ∈ s.pendingTimers) :
    (run s [.recv (pongFrame id), .fire id]).events =
        s.events ++ [.resolved id .unit] ∧
    (run s [.fire id, .recv (pongFrame id)]).events =
        s.events ++ [.rejected id "Ping timeout"] ∧
    run s [.fire id, .recv (pongFrame id)] = fireTimeout s id := by
  have hhas : mapHas s.messageHandlers id = true := by
    rw [mapHas_eq_isSome, hget]
    rfl
  have hpong : handleMessage s (pongFrame id) =
      { s with
        events := s.events ++ [.resolved id .unit],
        messageHandlers := mapDelete s.messageHandlers id } := by
    rw [show pongFrame id = (⟨some id, .pong⟩ : Frame) from rfl,
      handleMessage_dispatch s id _ _ hid hget]
    rfl
  have hft : fireTimeout s id =
      { messageHandlers := mapDelete s.messageHandlers id,
        pendingTimers := s.pendingTimers.erase id,
        events := s.events ++ [.rejected id "Ping timeout"] } := by
    simp [fireTimeout, htimer, hhas]
  have hdropHas : mapHas (fireTimeout s id).messageHandlers id = false := by
    rw [hft]
    exact mapHas_mapDelete_self _ _
  have hdrop : handleMessage (fireTimeout s id) (pongFrame id) =
      fireTimeout s id := by
    rw [show pongFrame id = (⟨some id, .pong⟩ : Frame) from rfl]
    exact handleMessage_drop _ _ _ hdropHas
  refine ⟨?_, ?_, ?_⟩
  · show (fireTimeout (handleMessage s (pongFrame id)) id).events =
      s.events ++ [.resolved id .unit]
    rw [hpong]
    simp [fireTimeout, htimer, mapHas_mapDelete_self]
  · show (handleMessage (fireTimeout s id) (pongFrame id)).events =
      s.events ++ [.rejected id "Ping timeout"]
    rw [hdrop, hft]
  · exact hdrop

/-- Witness for C4 at the concrete state reached by `ping` with id
`"a"`. -/
theorem heartbeat_race_witness :
    (("a" : String) ≠ "" ∧
      mapGet (ping initState "a").messageHandlers "a" = some .heartbeat ∧
      "a" ∈ (ping initState "a").pendingTimers) ∧
    ((run (ping initState "a") [.recv (pongFrame "a"), .fire "a"]).events =
        (ping initState "a").events ++ [.resolved "a" .unit] ∧
    (run (ping initState "a") [.fire "a", .recv (pongFrame "a")]).events =
        (ping initState "a").events ++ [.rejected "a" "Ping timeout"] ∧
    run (ping initState "a") [.fire "a", .recv (pongFrame "a")] =
      fireTimeout (ping initState "a") "a") :=
  ⟨⟨by decide, by decide, by decide⟩,
    heartbeat_race (ping initState "a") "a" (by decide) (by decide)
      (by decide)⟩

/-- C7 counterexample: the timeout timer is not cancelled on the terminal
transition.  After the heartbeat exchange `"a"` resolves via `pong`, the
exchange is gone from the registry but its timer is still armed — a timer
owned by a terminated exchange remains pending, contradicting the
claim. -/
theorem timeout_not_cancelled_cex :
    "a" ∈ (handleMessage (ping initState "a")
        (pongFrame "a")).pendingTimers ∧
      mapHas (handleMessage (ping initState "a")
        (pongFrame "a")).messageHandlers "a" = false := by decide

/-- C7 (amended): the source never cancels the heartbeat timer — after a
heartbeat exchange resolves via a matching `pong`, its timer is still
armed; however, the timer callback re-checks registry membership, so when
it later fires it emits no event (in particular no spurious rejection). -/
theorem timeout_harmless_after_pong (s : ClientState) (id : String)
    (hid : id ≠ "") (hget : mapGet s.messageHandlers id = some .heartbeat)
    (htimer : id ∈ s.pendingTimers) :
    id ∈ (handleMessage s (pongFrame id)).pendingTimers ∧
    mapHas (handleMessage s (pongFrame id)).messageHandlers id = false ∧
    (fireTimeout (handleMessage s (pongFrame id)) id).events =
      (handleMessage s (pongFrame id)).events := by
  have hpong : handleMessage s (pongFrame id) =
      { s with
        events := s.events ++ [.resolved id .unit],
        messageHandlers := mapDelete s.messageHandlers id } := by
    rw [show pongFrame id = (⟨some id, .pong⟩ : Frame) from rfl,
      handleMessage_dispatch s id _ _ hid hget]
    rfl
  have hhas2 : mapHas (handleMessage s
      (pongFrame id)).messageHandlers id = false := by
    rw [hpong]
    exact mapHas_mapDelete_self _ _
  refine ⟨?_, hhas2, ?_⟩
  · rw [hpong]
    exact htimer
  · exact (fireTimeout_no_handler _ _ hhas2).1

/-- Witness for the amended C7 at the concrete state reached by `ping`
with id `"a"`. -/
theorem timeout_harmless_after_pong_witness :
    (("a" : String) ≠ "" ∧
      mapGet (ping initState "a").messageHandlers "a" = some .heartbeat ∧
      "a" ∈ (ping initState "a").pendingTimers) ∧
    ("a" ∈ (handleMessage (ping initState "a")
        (pongFrame "a")).pendingTimers ∧
    mapHas (handleMessage (ping initState "a")
      (pongFrame "a")).messageHandlers "a" = false ∧
    (fireTimeout (handleMessage (ping initState "a")
        (pongFrame "a")) "a").events =
      (handleMessage (ping initState "a") (pongFrame "a")).events) :=
  ⟨⟨by decide, by decide, by decide⟩,
    timeout_harmless_after_pong (ping initState "a") "a" (by decide)
      (by decide) (by decide)⟩

/-- C2: exactly-once terminal settlement.  (1) Any frame-handling step
that settles the exchange `id` (i.e. that grows its terminal event count)
removes `id` from the registry in the same step; (2) so does any timeout
firing that settles it; (3) once `id` is absent from the registry, a
frame bearing `id` is treated as unmatched and leaves the state entirely
unchanged; (4) a timeout firing for an absent `id` emits no event; and
(5) over any subsequent sequence of frame deliveries and timer firings,
no further terminal event for `id` is ever emitted — hence no second
settlement of the same promise occurs. -/
theorem exactly_once_settlement (s : ClientState) (id : String) (f : Frame)
    (l : List Input) (hl : l.all Input.isPassive = true) :
    (countTerminal s.events id <
        countTerminal (handleMessage s f).events id →
       mapHas (handleMessage s f).messageHandlers id = false) ∧
    (countTerminal s.events id <
        countTerminal (fireTimeout s id).events id →
       mapHas (fireTimeout s id).messageHandlers id = false) ∧
    (mapHas s.messageHandlers id = false → f.request_id = some id →
       handleMessage s f = s) ∧
    (mapHas s.messageHandlers id = false →
       (fireTimeout s id).events = s.events) ∧
    (mapHas s.messageHandlers id = false →
       countTerminal (run s l).events id = countTerminal s.events id) := by
  refine ⟨?_, ?_, ?_, ?_, ?_⟩
  · obtain ⟨orid, t⟩ := f
    cases orid with
    | none =>
        rw [handleMessage_none]
        intro hlt
        exact absurd hlt (lt_irrefl _)
    | some rid =>
        by_cases hrid : rid = ""
        · subst hrid
          rw [handleMessage_empty_id]
          intro hlt
          exact absurd hlt (lt_irrefl _)
        · by_cases hhas : mapHas s.messageHandlers rid = true
          · have hsome : (mapGet s.messageHandlers rid).isSome = true := by
              rw [← mapHas_eq_isSome]
              exact hhas
            obtain ⟨hd, hget⟩ := Option.isSome_iff_exists.mp hsome
            rw [handleMessage_dispatch s rid t hd hrid hget]
            by_cases hidr : id = rid
            · subst hidr
              intro hlt
              rcases runHandler_settle id hd t s with heq | hfalse
              · rw [heq] at hlt
                exact absurd hlt (lt_irrefl _)
              · exact hfalse
            · obtain ⟨tail, hev, hall⟩ := runHandler_events_suffix rid hd t s
              intro hlt
              rw [hev, countTerminal_append,
                countTerminal_zero_of_ne tail rid id hall hidr,
                Nat.add_zero] at hlt
              exact absurd hlt (lt_irrefl _)
          · have hh : mapHas s.messageHandlers rid = false := by
              simpa using hhas
            rw [handleMessage_drop s rid t hh]
            intro hlt
            exact absurd hlt (lt_irrefl _)
  · by_cases ht : id ∈ s.pendingTimers
    · by_cases hg : mapHas s.messageHandlers id = true
      · have hft : fireTimeout s id =
            { messageHandlers := mapDelete s.messageHandlers id,
              pendingTimers := s.pendingTimers.erase id,
              events := s.events ++ [.rejected id "Ping timeout"] } := by
          simp [fireTimeout, ht, hg]
        rw [hft]
        intro _
        exact mapHas_mapDelete_self _ _
      · have hg' : mapHas s.messageHandlers id = false := by simpa using hg
        have hf := fireTimeout_no_handler s id hg'
        intro hlt
        rw [hf.1] at hlt
        exact absurd hlt (lt_irrefl _)
    · have hf : fireTimeout s id = s := by simp [fireTimeout, ht]
      rw [hf]
      intro hlt
      exact absurd hlt (lt_irrefl _)
  · intro h hreq
    obtain ⟨orid, t⟩ := f
    have horid : orid = some id := hreq
    subst horid
    exact handleMessage_drop s id t h
  · intro h
    exact (fireTimeout_no_handler s id h).1
  · intro h
    exact (run_passive_no_new s l id hl h).2

/-- Witness for C2 at a concrete state, frame and passive trace. -/
theorem exactly_once_settlement_witness :
    ([Input.recv (pongFrame "a"),
        Input.fire "a"].all Input.isPassive = true) ∧
    ((countTerminal initState.events "a" <
        countTerminal (handleMessage initState (pongFrame "a")).events "a" →
       mapHas (handleMessage initState
         (pongFrame "a")).messageHandlers "a" = false) ∧
    (countTerminal initState.events "a" <
        countTerminal (fireTimeout initState "a").events "a" →
       mapHas (fireTimeout initState "a").messageHandlers "a" = false) ∧
    (mapHas initState.messageHandlers "a" = false →
       (pongFrame "a").request_id = some "a" →
       handleMessage initState (pongFrame "a") = initState) ∧
    (mapHas initState.messageHandlers "a" = false →
       (fireTimeout initState "a").events = initState.events) ∧
    (mapHas initState.messageHandlers "a" = false →
       countTerminal (run initState [Input.recv (pongFrame "a"),
         Input.fire "a"]).events "a" =
         countTerminal initState.events "a")) :=
  ⟨by decide, exactly_once_settlement initState "a" (pongFrame "a")
    [Input.recv (pongFrame "a"), Input.fire "a"] (by decide)⟩

/-- C8: for every sequence of random draws, `generateUUID` returns a
string (it is total by construction, so it never raises) in the standard
unique-identifier layout: 36 characters in 8-4-4-4-12 groups of lowercase
hex digits separated by hyphens, with the version nibble fixed to `'4'`
and the variant nibble in `{8, 9, a, b}`. -/
theorem generateUUID_format (rand : Nat → Fin 16) :
    (generateUUID rand).length = 36 ∧
    ∃ g1 g2 g3 g4 g5 : List Char,
      (generateUUID rand).toList =
          g1 ++ '-' :: (g2 ++ '-' :: (g3 ++ '-' :: (g4 ++ '-' :: g5))) ∧
      g1.length = 8 ∧ g2.length = 4 ∧ g3.length = 4 ∧ g4.length = 4 ∧
      g5.length = 12 ∧
      (∀ c ∈ g1 ++ g2 ++ g3 ++ g4 ++ g5, isHexChar c = true) ∧
      g3.head? = some '4' ∧
      (∃ c, g4.head? = some c ∧
        (c = '8' ∨ c = '9' ∨ c = 'a' ∨ c = 'b')) := by
  have hx : ∀ v : Fin 16, isHexChar (hexDigitN v.val) = true := by decide
  have hy : ∀ v : Fin 16, hexDigitN ((v.val &&& 3) ||| 8) = '8' ∨
      hexDigitN ((v.val &&& 3) ||| 8) = '9' ∨
      hexDigitN ((v.val &&& 3) ||| 8) = 'a' ∨
      hexDigitN ((v.val &&& 3) ||| 8) = 'b' := by decide
  have hxy : ∀ v : Fin 16,
      isHexChar (hexDigitN ((v.val &&& 3) ||| 8)) = true := by decide
  refine ⟨rfl,
    [hexDigitN (rand 0).val, hexDigitN (rand 1).val, hexDigitN (rand 2).val,
     hexDigitN (rand 3).val, hexDigitN (rand 4).val, hexDigitN (rand 5).val,
     hexDigitN (rand 6).val, hexDigitN (rand 7).val],
    [hexDigitN (rand 8).val, hexDigitN (rand 9).val,
     hexDigitN (rand 10).val, hexDigitN (rand 11).val],
    ['4', hexDigitN (rand 12).val, hexDigitN (rand 13).val,
     hexDigitN (rand 14).val],
    [hexDigitN (((rand 15).val &&& 3) ||| 8), hexDigitN (rand 16).val,
     hexDigitN (rand 17).val, hexDigitN (rand 18).val],
    [hexDigitN (rand 19).val, hexDigitN (rand 20).val,
     hexDigitN (rand 21).val, hexDigitN (rand 22).val,
     hexDigitN (rand 23).val, hexDigitN (rand 24).val,
     hexDigitN (rand 25).val, hexDigitN (rand 26).val,
     hexDigitN (rand 27).val, hexDigitN (rand 28).val,
     hexDigitN (rand 29).val, hexDigitN (rand 30).val],
    rfl, rfl, rfl, rfl, rfl, rfl, ?_, rfl,
    ⟨hexDigitN (((rand 15).val &&& 3) ||| 8), rfl, hy (rand 15)⟩⟩
  intro c hc
  fin_cases hc <;> first
    | exact hx _
    | exact hxy _
    | decide
